import Mathlib

/- Verification of the balogan structured-logging library.

   The Go sources are embedded shallowly:
   * `LogLevel` (part_000, richer 7-level variant) is an integer with the
     comparison predicates of the source.
   * `Fields` (fields.go) is an association list from `String` to embedded
     Go values `Val`; Go map objects live in an explicit `Store` so that the
     copy-on-write discipline of `Fields.Copy`, `Fields.With` and
     `Fields.WithFields` (structural independence of copies) is observable.
   * the three formatters (fields.go) are executable string functions;
     Go's `fmt` verb "%v", `sort.Strings`, `strings.Contains`,
     `strings.ReplaceAll` and `encoding/json` marshalling are embedded by
     executable char-list helpers so that concrete instances evaluate
     inside the kernel.
   * the Logger (balogan.go) emission pipeline produces a trace of
     `Event`s: one `Event.write` per configured writer, plus the terminal
     `Event.exitEv` / `Event.panicEv` actions of FATAL / PANIC logging.
     Concurrent dispatch delivers the same per-writer payloads as the
     sequential branch (the flag only changes scheduling), so `write`
     returns the per-writer delivery list; `fmt.Sprint`/`fmt.Sprintf`
     message rendering is abstracted by passing the rendered body.
   * the context carrier (context.go) is a list of key/value bindings,
     most recent first, with Go's `*Logger` pointers represented by ids.
-/

namespace Balogan

/-- Byte-lexicographic comparison of strings as char lists, modelling the
order used by Go's `sort.Strings` (UTF-8 byte order coincides with code
point order). -/
def strLeAux : List Char → List Char → Bool
  | [], _ => true
  | _ :: _, [] => false
  | a :: as, b :: bs => if a = b then strLeAux as bs else decide (a < b)

/-- Lexicographic `≤` on strings, executable in the kernel. -/
def strLe (a b : String) : Bool := strLeAux a.data b.data

/-- The propositional form of `strLe`, the order `sortStrings` sorts
by. -/
def strLeP (a b : String) : Prop := strLe a b = true

instance : DecidableRel strLeP :=
  fun a b => inferInstanceAs (Decidable (strLe a b = true))

/-- Models Go's `sort.Strings`: sorts a list of keys lexicographically. -/
def sortStrings (l : List String) : List String :=
  l.insertionSort strLeP

/-- Models `strings.Contains(s, c)` for a single-character needle. -/
def containsChar (s : String) (c : Char) : Bool := s.data.contains c

/-- Helper for `strings.ReplaceAll(s, quote, backslash-quote)`. -/
def escapeQuotesAux : List Char → List Char
  | [] => []
  | c :: cs =>
    if c = '"' then '\\' :: '"' :: escapeQuotesAux cs
    else c :: escapeQuotesAux cs

/-- Models the logfmt escaping step: every double quote in the rendered
value is backslash-escaped. -/
def escapeQuotes (s : String) : String := String.mk (escapeQuotesAux s.data)

/-- An embedded Go interface value as stored in `Fields`.  `nilV` is the
nil interface (the zero value of a map lookup), `chanV` stands for a
channel value, the representative of values `encoding/json` cannot
marshal. -/
inductive Val where
  | nilV
  | str (s : String)
  | int (i : Int)
  | bool (b : Bool)
  | chanV
deriving DecidableEq

/-- Rendering of a `Val` by Go's `fmt` verb "%v" (used by the key=value
and logfmt formatters).  Channel values render as an address; a fixed
representative address is used. -/
def govRender : Val → String
  | .nilV => "<nil>"
  | .str s => s
  | .int i => toString i
  | .bool b => if b then "true" else "false"
  | .chanV => "0xc000010000"

/-- `type Fields map[string]interface\x7b\x7d` (fields.go): the contents of a
Go map object, as an association list. -/
abbrev Fields := List (String × Val)

/-- Go map lookup `v, ok := f[k]`: the value stored under `k`, if any. -/
def Fields.get? (f : Fields) (k : String) : Option Val :=
  (f.find? (fun p => p.1 == k)).map (fun p => p.2)

/-- Go map assignment `f[k] = v`: replaces the binding of `k` in place if
present, otherwise adds it. -/
def Fields.insertKV (f : Fields) (k : String) (v : Val) : Fields :=
  if (Fields.get? f k).isSome then
    f.map (fun p => if p.1 == k then (k, v) else p)
  else f ++ [(k, v)]

/-- Go map indexing `f[k]` in value position: the stored value, or the
zero value (nil interface) when the key is absent. -/
def Fields.getV (f : Fields) (k : String) : Val :=
  (Fields.get? f k).getD Val.nilV

/-- Well-formedness of an embedded map: a Go map never holds two bindings
for the same key. -/
def Fields.keysNodup (f : Fields) : Prop := (f.map Prod.fst).Nodup

instance (f : Fields) : Decidable (Fields.keysNodup f) :=
  inferInstanceAs (Decidable ((f.map Prod.fst).Nodup))

/-- `type LogLevel int` (part_000, the authoritative 7-level variant). -/
abbrev LogLevel := Int

def TraceLevel : LogLevel := -1

def DebugLevel : LogLevel := 0

def InfoLevel : LogLevel := 1

def WarningLevel : LogLevel := 2

def ErrorLevel : LogLevel := 3

def FatalLevel : LogLevel := 4

def PanicLevel : LogLevel := 5

/-- `LogLevel.IsEnabled(minLevel)` (part_000): `level >= minLevel`. -/
def LogLevel.IsEnabled (level minLevel : LogLevel) : Bool :=
  decide (minLevel ≤ level)

/-- `LogLevel.ShouldExit()` (part_000): `level >= FatalLevel`. -/
def LogLevel.ShouldExit (level : LogLevel) : Bool :=
  decide (FatalLevel ≤ level)

/-- `LogLevel.ShouldPanic()` (part_000): `level == PanicLevel`. -/
def LogLevel.ShouldPanic (level : LogLevel) : Bool :=
  decide (level = PanicLevel)

/-- Observable control events of the emission pipeline: a payload
delivered to a writer (writers are identified by index/id), a process
termination (`os.Exit(1)`), or a stack unwind carrying its message. -/
inductive Event where
  | write (writer : Nat) (message : String)
  | exitEv
  | panicEv (message : String)
deriving DecidableEq

/-- True exactly on writer-delivery events. -/
def Event.isWrite : Event → Bool
  | .write _ _ => true
  | _ => false

/-- `LogLevel.Exit()` (part_000): calls `os.Exit(1)` iff `ShouldExit()`
holds, otherwise does nothing.  The action is modelled as the trace of
events it produces. -/
def LogLevel.Exit (level : LogLevel) : List Event :=
  if LogLevel.ShouldExit level then [Event.exitEv] else []

/-- `LogLevel.Panic(message)` (part_000): panics with `message` iff
`ShouldPanic()` holds, otherwise does nothing. -/
def LogLevel.Panic (level : LogLevel) (message : String) : List Event :=
  if LogLevel.ShouldPanic level then [Event.panicEv message] else []

/-- `LogLevel.String()` (part_000): canonical uppercase name of each of
the seven levels, and "UNKNOWN" for any other integer.  (Declared after
the other `LogLevel` definitions so that it does not shadow the string
type in their signatures.) -/
def LogLevel.String (level : LogLevel) : String :=
  if level = TraceLevel then "TRACE"
  else if level = DebugLevel then "DEBUG"
  else if level = InfoLevel then "INFO"
  else if level = WarningLevel then "WARNING"
  else if level = ErrorLevel then "ERROR"
  else if level = FatalLevel then "FATAL"
  else if level = PanicLevel then "PANIC"
  else "UNKNOWN"

/-- `JSONFormatter`, `KeyValueFormatter\x7bSeparator\x7d` and
`LogfmtFormatter` (fields.go), plus an arbitrary user-supplied
implementation of the `FieldsFormatter` interface. -/
inductive FieldsFormatter where
  | json
  | keyValue (separator : String)
  | logfmt
  | custom (format : Fields → String)

/-- `KeyValueFormatter.Format` (fields.go): empty map renders to "";
otherwise key=value pairs over lexicographically sorted keys, joined by
the configured separator (a single space when unset), values rendered by
"%v". -/
def keyValueFormat (sep : String) (fields : Fields) : String :=
  if fields.length = 0 then ""
  else
    let separator := if sep = "" then " " else sep
    let keys := sortStrings (fields.map Prod.fst)
    let pairs := keys.map (fun k => k ++ "=" ++ govRender (Fields.getV fields k))
    String.intercalate separator pairs

/-- `LogfmtFormatter.Format` (fields.go): empty map renders to "";
otherwise sorted key=value pairs joined by a single space, where a value
whose "%v" rendering contains a space or an equals sign is double-quoted
with internal double quotes backslash-escaped. -/
def logfmtFormat (fields : Fields) : String :=
  if fields.length = 0 then ""
  else
    let keys := sortStrings (fields.map Prod.fst)
    let pairs := keys.map (fun k =>
      let valueStr := govRender (Fields.getV fields k)
      let quoted :=
        if containsChar valueStr ' ' || containsChar valueStr '=' then
          "\"" ++ escapeQuotes valueStr ++ "\""
        else valueStr
      k ++ "=" ++ quoted)
    String.intercalate " " pairs

/-- JSON string escaping used by `encoding/json` for the keys and string
values that occur here. -/
def jsonEscAux : List Char → List Char
  | [] => []
  | c :: cs =>
    if c = '"' then '\\' :: '"' :: jsonEscAux cs
    else if c = '\\' then '\\' :: '\\' :: jsonEscAux cs
    else c :: jsonEscAux cs

/-- A JSON string literal for `s`. -/
def jsonQuote (s : String) : String :=
  "\"" ++ String.mk (jsonEscAux s.data) ++ "\""

/-- `json.Marshal` on a single interface value: succeeds on nil, string,
integer and boolean values and fails on a channel value with the error
`encoding/json` reports for unsupported types. -/
def Val.jsonMarshal : Val → Except String String
  | .nilV => .ok "null"
  | .str s => .ok (jsonQuote s)
  | .int i => .ok (toString i)
  | .bool b => .ok (if b then "true" else "false")
  | .chanV => .error "json: unsupported type: chan int"

/-- Marshals the entries of `fields` for the given (sorted) key list,
propagating the first failure, as `json.Marshal` does over a map. -/
def marshalPairs (fields : Fields) : List String → Except String (List String)
  | [] => .ok []
  | k :: ks =>
    match Val.jsonMarshal (Fields.getV fields k) with
    | .error e => .error e
    | .ok vs =>
      match marshalPairs fields ks with
      | .error e => .error e
      | .ok rest => .ok ((jsonQuote k ++ ":" ++ vs) :: rest)

/-- `json.Marshal(fields)`: a single JSON object over the sorted keys
(Go's `encoding/json` sorts map keys), or the first marshalling error. -/
def marshalFields (fields : Fields) : Except String String :=
  match marshalPairs fields (sortStrings (fields.map Prod.fst)) with
  | .error e => .error e
  | .ok pairs => .ok ("\x7b" ++ String.intercalate "," pairs ++ "\x7d")

/-- `JSONFormatter.Format` (fields.go): empty map renders to "";
otherwise the `json.Marshal` output, or on marshalling failure the inline
fallback string built by
`fmt.Sprintf` from the error, never an error to the caller. -/
def jsonFormat (fields : Fields) : String :=
  if fields.length = 0 then ""
  else
    match marshalFields fields with
    | .ok data => data
    | .error e =>
      "\x7b\"error\":\"failed to marshal fields: " ++ e ++ "\"\x7d"

/-- Dispatch of the `FieldsFormatter` interface (fields.go). -/
def FieldsFormatter.Format : FieldsFormatter → Fields → String
  | .json, f => jsonFormat f
  | .keyValue sep, f => keyValueFormat sep f
  | .logfmt, f => logfmtFormat f
  | .custom fn, f => fn f

/-- `var DefaultFieldsFormatter FieldsFormatter = &KeyValueFormatter\x7b\x7d`
(fields.go). -/
def DefaultFieldsFormatter : FieldsFormatter := .keyValue ""

/-- The heap of live Go map objects backing `Fields` values.  A `Fields`
reference is an index into the store; `Fields.Copy` allocates a fresh
cell, so mutation of a copy is mutation of a different cell. -/
abbrev Store := List Fields

/-- Dereference a map object. -/
def Store.read (s : Store) (r : Nat) : Fields := s.getD r []

/-- `make(Fields)` followed by populating with `contents`: a fresh map
object; its reference is the previous store length. -/
def Store.alloc (s : Store) (contents : Fields) : Store × Nat :=
  (s ++ [contents], s.length)

/-- Go map assignment `m[k] = v` on the object behind reference `r`. -/
def Store.setKey (s : Store) (r : Nat) (k : String) (v : Val) : Store :=
  s.set r (Fields.insertKV (Store.read s r) k v)

/-- `Fields.Copy` (fields.go): `copy := make(Fields, len(f));
maps.Copy(copy, f); return copy` — a fresh object with the same
bindings. -/
def fieldsCopy (s : Store) (r : Nat) : Store × Nat :=
  Store.alloc s (Store.read s r)

/-- `Fields.With(key, value)` (fields.go): `copy := f.Copy();
copy[key] = value; return copy`. -/
def fieldsWith (s : Store) (r : Nat) (k : String) (v : Val) : Store × Nat :=
  (Store.setKey (fieldsCopy s r).1 (fieldsCopy s r).2 k v, (fieldsCopy s r).2)

/-- `Fields.WithFields(fields)` (fields.go): `copy := f.Copy();
for k, v := range fields \x7b copy[k] = v \x7d; return copy`. -/
def fieldsWithFields (s : Store) (r : Nat) (other : Fields) : Store × Nat :=
  (other.foldl (fun acc kv => Store.setKey acc (fieldsCopy s r).2 kv.1 kv.2)
      (fieldsCopy s r).1,
    (fieldsCopy s r).2)

/-- `type PrefixBuilderFunc func(args ...any) string` (part_004).  The
variadic argument is vestigial (ignored by every built-in builder), so a
builder is a string producer. -/
abbrev PrefixBuilderFunc := Unit → String

/-- The `Logger` struct (balogan.go).  Writers and the error handler are
opaque capabilities identified by ids; `fields` is a reference to a map
object in the `Store`. -/
structure Logger where
  level : LogLevel
  writers : List Nat
  prefixes : List PrefixBuilderFunc
  errorHandler : Nat
  concurrency : Bool
  fields : Nat
  fieldsFormatter : FieldsFormatter

/-- `Logger.buildPrefixStr` (balogan.go): renders every attached prefix
builder in order and joins the results with a single space
(`strings.Join(gospadi.Map(l.prefixes, ...), " ")` — no filtering of
empty renders). -/
def Logger.buildPrefixStr (l : Logger) : String :=
  String.intercalate " " (l.prefixes.map (fun f => f ()))

/-- `Logger.buildMessage` (balogan.go): starts from the level name,
appends the prefix string when it is non-empty, appends the formatted
fields when the map is non-empty and the formatter output is non-empty,
appends the message body, and joins the parts with single spaces. -/
def Logger.buildMessage (s : Store) (l : Logger) (level : LogLevel)
    (message : String) : String :=
  let parts : List String := [LogLevel.String level]
  let prefixStr := Logger.buildPrefixStr l
  let parts := if prefixStr ≠ "" then parts ++ [prefixStr] else parts
  let flds := Store.read s l.fields
  let parts :=
    if 0 < flds.length then
      let fieldsStr := FieldsFormatter.Format l.fieldsFormatter flds
      if fieldsStr ≠ "" then parts ++ [fieldsStr] else parts
    else parts
  String.intercalate " " (parts ++ [message])

/-- `Logger.write` (balogan.go): dispatches the rendered message to every
configured writer.  The concurrent branch delivers the same per-writer
payloads as the sequential branch (goroutines plus a join barrier change
only the scheduling), so the delivery trace is the writer list mapped to
write events; per-writer errors and the error handler are opaque here. -/
def Logger.write (l : Logger) (message : String) : List Event :=
  l.writers.map (fun w => Event.write w message)

/-- `Logger.Log(level, args...)` (balogan.go): returns immediately when
`level.IsEnabled(l.level)` fails; otherwise renders the full message and
dispatches it.  `fmt.Sprint(args...)` is abstracted by taking the
rendered `message` body. -/
def Logger.Log (s : Store) (l : Logger) (level : LogLevel)
    (message : String) : List Event :=
  if LogLevel.IsEnabled level l.level then
    Logger.write l (Logger.buildMessage s l level message)
  else []

/-- `Logger.Logf(level, format, args...)` (balogan.go): identical to
`Log` after `fmt.Sprintf(format, args...)` has rendered the body. -/
def Logger.Logf (s : Store) (l : Logger) (level : LogLevel)
    (formatted : String) : List Event :=
  if LogLevel.IsEnabled level l.level then
    Logger.write l (Logger.buildMessage s l level formatted)
  else []

/-- `Logger.Trace` (balogan.go): `l.Log(TraceLevel, args...)`. -/
def Logger.Trace (s : Store) (l : Logger) (message : String) : List Event :=
  Logger.Log s l TraceLevel message

/-- `Logger.Debug` (balogan.go): `l.Log(DebugLevel, args...)`. -/
def Logger.Debug (s : Store) (l : Logger) (message : String) : List Event :=
  Logger.Log s l DebugLevel message

/-- `Logger.Info` (balogan.go): `l.Log(InfoLevel, args...)`. -/
def Logger.Info (s : Store) (l : Logger) (message : String) : List Event :=
  Logger.Log s l InfoLevel message

/-- `Logger.Warning` (balogan.go): `l.Log(WarningLevel, args...)`. -/
def Logger.Warning (s : Store) (l : Logger) (message : String) : List Event :=
  Logger.Log s l WarningLevel message

/-- `Logger.Error` (balogan.go): `l.Log(ErrorLevel, args...)`. -/
def Logger.Error (s : Store) (l : Logger) (message : String) : List Event :=
  Logger.Log s l ErrorLevel message

/-- `Logger.Tracef` (balogan.go): `l.Logf(TraceLevel, format, args...)`. -/
def Logger.Tracef (s : Store) (l : Logger) (formatted : String) : List Event :=
  Logger.Logf s l TraceLevel formatted

/-- `Logger.Debugf` (balogan.go). -/
def Logger.Debugf (s : Store) (l : Logger) (formatted : String) : List Event :=
  Logger.Logf s l DebugLevel formatted

/-- `Logger.Infof` (balogan.go). -/
def Logger.Infof (s : Store) (l : Logger) (formatted : String) : List Event :=
  Logger.Logf s l InfoLevel formatted

/-- `Logger.Warningf` (balogan.go). -/
def Logger.Warningf (s : Store) (l : Logger) (formatted : String) : List Event :=
  Logger.Logf s l WarningLevel formatted

/-- `Logger.Errorf` (balogan.go). -/
def Logger.Errorf (s : Store) (l : Logger) (formatted : String) : List Event :=
  Logger.Logf s l ErrorLevel formatted

/-- `Logger.Fatal` (balogan.go): `l.Log(FatalLevel, args...)` and then
`FatalLevel.Exit()`. -/
def Logger.Fatal (s : Store) (l : Logger) (message : String) : List Event :=
  Logger.Log s l FatalLevel message ++ LogLevel.Exit FatalLevel

/-- `Logger.Fatalf` (balogan.go): `l.Logf(FatalLevel, ...)` and then
`FatalLevel.Exit()`. -/
def Logger.Fatalf (s : Store) (l : Logger) (formatted : String) : List Event :=
  Logger.Logf s l FatalLevel formatted ++ LogLevel.Exit FatalLevel

/-- `Logger.Panic` (balogan.go): computes `message := fmt.Sprint(args...)`
first, then `l.Log(PanicLevel, args...)`, then
`PanicLevel.Panic(message)`. -/
def Logger.Panic (s : Store) (l : Logger) (message : String) : List Event :=
  Logger.Log s l PanicLevel message ++ LogLevel.Panic PanicLevel message

/-- `Logger.Panicf` (balogan.go): `message := fmt.Sprintf(format, args...)`,
then `l.Logf(PanicLevel, format, args...)`, then
`PanicLevel.Panic(message)`. -/
def Logger.Panicf (s : Store) (l : Logger) (formatted : String) : List Event :=
  Logger.Logf s l PanicLevel formatted ++ LogLevel.Panic PanicLevel formatted

/-- `Logger.WithTemporaryPrefix(builder...)` (balogan.go): a new Logger
with the parent's configuration, the extra builders appended to the
prefix list, and `l.fields.Copy()` as its fields. -/
def Logger.WithTemporaryPrefix (s : Store) (l : Logger)
    (builders : List PrefixBuilderFunc) : Store × Logger :=
  ((fieldsCopy s l.fields).1,
    { l with
      prefixes := l.prefixes ++ builders,
      fields := (fieldsCopy s l.fields).2 })

/-- `Logger.WithField(key, value)` (balogan.go): a new Logger whose
fields are `l.fields.With(key, value)`. -/
def Logger.WithField (s : Store) (l : Logger) (k : String) (v : Val) :
    Store × Logger :=
  ((fieldsWith s l.fields k v).1,
    { l with fields := (fieldsWith s l.fields k v).2 })

/-- `Logger.WithFields(fields)` (balogan.go): a new Logger whose fields
are `l.fields.WithFields(fields)`. -/
def Logger.WithFields (s : Store) (l : Logger) (other : Fields) :
    Store × Logger :=
  ((fieldsWithFields s l.fields other).1,
    { l with fields := (fieldsWithFields s l.fields other).2 })

/-- `Logger.WithFieldsFormatter(formatter)` (balogan.go): a new Logger
with `l.fields.Copy()` and the given formatter. -/
def Logger.WithFieldsFormatter (s : Store) (l : Logger)
    (formatter : FieldsFormatter) : Store × Logger :=
  ((fieldsCopy s l.fields).1,
    { l with
      fields := (fieldsCopy s l.fields).2,
      fieldsFormatter := formatter })

/-- `Logger.WithJSON()` (balogan.go):
`l.WithFieldsFormatter(&JSONFormatter\x7b\x7d)`. -/
def Logger.WithJSON (s : Store) (l : Logger) : Store × Logger :=
  Logger.WithFieldsFormatter s l .json

/-- `Logger.WithLogfmt()` (balogan.go):
`l.WithFieldsFormatter(&LogfmtFormatter\x7b\x7d)`. -/
def Logger.WithLogfmt (s : Store) (l : Logger) : Store × Logger :=
  Logger.WithFieldsFormatter s l .logfmt

/-- `Logger.WithKeyValue()` (balogan.go):
`l.WithFieldsFormatter(&KeyValueFormatter\x7b\x7d)`. -/
def Logger.WithKeyValue (s : Store) (l : Logger) : Store × Logger :=
  Logger.WithFieldsFormatter s l (.keyValue "")

/-- `Logger.WithKeyValueSeparator(separator)` (balogan.go):
`l.WithFieldsFormatter(&KeyValueFormatter\x7bSeparator: separator\x7d)`. -/
def Logger.WithKeyValueSeparator (s : Store) (l : Logger) (sep : String) :
    Store × Logger :=
  Logger.WithFieldsFormatter s l (.keyValue sep)

/-- Context keys: the private typed key
`contextKey contextKeyType = "balogan:context"` (context.go) is
collision-resistant, so it is distinct from every key foreign code can
use. -/
inductive CtxKey where
  | balogan
  | user (name : String)
deriving DecidableEq

/-- Values stored in a context: a `*Logger` (pointers represented by
ids), or values of other types. -/
inductive CtxVal where
  | lg (id : Nat)
  | str (s : String)
  | int (i : Int)
deriving DecidableEq

/-- True exactly on stored `*Logger` values (the type assertion
`.(*Logger)` succeeds). -/
def CtxVal.isLogger : CtxVal → Bool
  | .lg _ => true
  | _ => false

/-- A non-nil `context.Context`: its key/value bindings, most recent
first.  `Option Context` with `none` models Go's nil context. -/
abbrev Context := List (CtxKey × CtxVal)

/-- `ctx.Value(key)`: the most recently bound value for `key`, or nil
(`none`) when the context does not carry the key. -/
def Context.value (ctx : Context) (k : CtxKey) : Option CtxVal :=
  (ctx.find? (fun p => p.1 == k)).map (fun p => p.2)

/-- `context.WithValue(ctx, k, v)`: a derived context whose lookup sees
the new binding first. -/
def Context.withValue (ctx : Context) (k : CtxKey) (v : CtxVal) : Context :=
  (k, v) :: ctx

/-- `Logger.WithContext(ctx)` (context.go):
`context.WithValue(ctx, contextKey, l)`, the logger identified by id. -/
def Logger.WithContext (lid : Nat) (ctx : Context) : Context :=
  Context.withValue ctx CtxKey.balogan (CtxVal.lg lid)

/-- `FromContext(ctx)` (context.go): `(nil, false)` on a nil context;
otherwise the type assertion `ctx.Value(contextKey).(*Logger)` — the
stored logger with `true` when the key holds a `*Logger`, and
`(nil, false)` when the key is absent or holds a value of another
type. -/
def FromContext (ctx : Option Context) : Option Nat × Bool :=
  match ctx with
  | none => (none, false)
  | some c =>
    match Context.value c CtxKey.balogan with
    | some (CtxVal.lg lid) => (some lid, true)
    | _ => (none, false)

/-- `HasContextValue(key)` (condition.go): the returned ContextCondition
is `ctx != nil && ctx.Value(key) != nil`. -/
def HasContextValue (k : CtxKey) (ctx : Option Context) : Bool :=
  match ctx with
  | none => false
  | some c => (Context.value c k).isSome

/-- `ContextValueEquals(key, expectedValue)` (condition.go): the returned
ContextCondition is `false` on a nil context and otherwise the interface
comparison `ctx.Value(key) == expectedValue`, where `none` is the nil
interface value. -/
def ContextValueEquals (k : CtxKey) (expected : Option CtxVal)
    (ctx : Option Context) : Bool :=
  match ctx with
  | none => false
  | some c => Context.value c k == expected

/-- Two's-complement wraparound of a 64-bit signed integer: Go's `int`
on a 64-bit platform has defined overflow, wrapping into the range from
`-2 ^ 63` to `2 ^ 63 - 1`. -/
def wrap64 (x : Int) : Int := (x + 2 ^ 63) % 2 ^ 64 - 2 ^ 63

/-- The captured counter of the closure returned by `SampleEveryN`
(condition.go): a Go `int` (64-bit, wrapping on overflow) starting at 0
and incremented once per call, so after `p` calls it holds `p` wrapped
into the `int` range. -/
def sampleCounter : Nat → Int
  | 0 => 0
  | p + 1 => wrap64 (sampleCounter p + 1)

/-- `SampleEveryN(n)` (condition.go): for `n <= 1` the condition is
`Always()`; otherwise the `p`-th call increments the captured wrapping
counter and returns `count % n == 1` with Go's truncated `%`. -/
def SampleEveryN (n : Int) (p : Nat) : Bool :=
  if n ≤ 1 then true
  else Int.tmod (sampleCounter p) n == 1

/-- The prefixes segment as the specification describes it: the join of
all rendered NON-EMPTY prefix strings with a single space, in attachment
order. -/
def specPrefixSegment (l : Logger) : String :=
  String.intercalate " "
    ((l.prefixes.map (fun f => f ())).filter (fun r => r ≠ ""))

/-- The formatted-fields segment: empty for an empty fields map,
otherwise the formatter output. -/
def specFieldsSegment (s : Store) (l : Logger) : String :=
  let flds := Store.read s l.fields
  if flds.length = 0 then ""
  else FieldsFormatter.Format l.fieldsFormatter flds

/-- The rendered message as the specification describes it (claim C2):
level name, prefixes segment, fields segment, message body, single-space
separated, empty segments omitted entirely, with the prefixes segment
joining only the non-empty prefix renders. -/
def specMessageC2 (s : Store) (l : Logger) (level : LogLevel)
    (message : String) : String :=
  String.intercalate " "
    ([LogLevel.String level]
      ++ (if specPrefixSegment l = "" then [] else [specPrefixSegment l])
      ++ (if specFieldsSegment s l = "" then [] else [specFieldsSegment s l])
      ++ [message])

/-- The prefixes segment as the code actually computes it: the join of
ALL rendered prefix strings, empty renders included. -/
def amendedPrefixSegment (l : Logger) : String :=
  String.intercalate " " (l.prefixes.map (fun f => f ()))

/-- The rendered message per the amended claim C2: as `specMessageC2`,
except that the prefixes segment joins all rendered prefix strings
(including empty renders) and is omitted only when that join itself is
the empty string. -/
def amendedMessageC2 (s : Store) (l : Logger) (level : LogLevel)
    (message : String) : String :=
  String.intercalate " "
    ([LogLevel.String level]
      ++ (if amendedPrefixSegment l = "" then [] else [amendedPrefixSegment l])
      ++ (if specFieldsSegment s l = "" then [] else [specFieldsSegment s l])
      ++ [message])

/-- One logfmt pair as the specification describes it (claim C6): the
value is double-quoted with internal quotes backslash-escaped if and only
if its rendered form contains a space or an equals sign, otherwise
bare. -/
def specLogfmtEntry (k : String) (vs : String) : String :=
  if containsChar vs ' ' || containsChar vs '=' then
    k ++ "=" ++ ("\"" ++ escapeQuotes vs ++ "\"")
  else k ++ "=" ++ vs

/-- The logfmt rendering as the specification describes it: key=value
pairs over lexicographically sorted keys, joined by single spaces, each
value quoted iff needed. -/
def specLogfmt (f : Fields) : String :=
  if f.length = 0 then ""
  else
    String.intercalate " "
      ((sortStrings (f.map Prod.fst)).map
        (fun k => specLogfmtEntry k (govRender (Fields.getV f k))))

/-- The writer-delivery events of a trace. -/
def writesOf (t : List Event) : List Event := t.filter Event.isWrite

/-- Concrete fixture: a logger with minimum level WARNING and two
writers, over a one-cell store. -/
def wLogger : Logger :=
  { level := WarningLevel, writers := [0, 1], prefixes := [],
    errorHandler := 0, concurrency := false, fields := 0,
    fieldsFormatter := .keyValue "" }

/-- Concrete fixture: a logger with two prefix builders, the second of
which renders the empty string. -/
def cxLogger : Logger :=
  { level := DebugLevel, writers := [0],
    prefixes := [fun _ => "a", fun _ => ""],
    errorHandler := 0, concurrency := false, fields := 0,
    fieldsFormatter := .keyValue "" }

/-- Concrete fixture: a one-cell store whose only map object is empty. -/
def oneCell : Store := [[]]

theorem Fields.get?_cons (p : String × Val) (f : Fields) (k : String) :
    Fields.get? (p :: f) k = if p.1 = k then some p.2 else Fields.get? f k := by
  unfold Fields.get?
  rw [List.find?_cons]
  by_cases h : p.1 = k
  · rw [if_pos h]
    have hb : (p.1 == k) = true := beq_iff_eq.mpr h
    rw [hb]
    rfl
  · rw [if_neg h]
    have hb : (p.1 == k) = false := beq_eq_false_iff_ne.mpr h
    rw [hb]

theorem Fields.get?_eq_none (f : Fields) (k : String)
    (h : k ∉ f.map Prod.fst) : Fields.get? f k = none := by
  induction f with
  | nil => rfl
  | cons p rest ih =>
    rw [List.map_cons, List.mem_cons] at h
    push_neg at h
    rw [Fields.get?_cons, if_neg (fun hh => h.1 hh.symm)]
    exact ih h.2

theorem Fields.get?_map_replace_self (f : Fields) (k : String) (v : Val)
    (h : (Fields.get? f k).isSome = true) :
    Fields.get? (f.map (fun p => if p.1 == k then (k, v) else p)) k
      = some v := by
  induction f with
  | nil => simp [Fields.get?] at h
  | cons p rest ih =>
    by_cases hp : p.1 = k
    · rw [List.map_cons]
      rw [show (if (p.1 == k) then (k, v) else p) = (k, v) by simp [hp]]
      rw [Fields.get?_cons, if_pos rfl]
    · rw [Fields.get?_cons, if_neg hp] at h
      rw [List.map_cons]
      rw [show (if (p.1 == k) then (k, v) else p) = p by simp [hp]]
      rw [Fields.get?_cons, if_neg hp]
      exact ih h

theorem Fields.get?_map_replace_ne (f : Fields) (k k' : String) (v : Val)
    (hne : k' ≠ k) :
    Fields.get? (f.map (fun p => if p.1 == k then (k, v) else p)) k'
      = Fields.get? f k' := by
  induction f with
  | nil => rfl
  | cons p rest ih =>
    by_cases hp : p.1 = k
    · rw [List.map_cons]
      rw [show (if (p.1 == k) then (k, v) else p) = (k, v) by simp [hp]]
      rw [Fields.get?_cons, Fields.get?_cons]
      rw [if_neg (fun hh : k = k' => hne hh.symm)]
      rw [if_neg (fun hh : p.1 = k' => hne (hp ▸ hh).symm)]
      exact ih
    · rw [List.map_cons]
      rw [show (if (p.1 == k) then (k, v) else p) = p by simp [hp]]
      rw [Fields.get?_cons, Fields.get?_cons]
      by_cases hk' : p.1 = k'
      · rw [if_pos hk', if_pos hk']
      · rw [if_neg hk', if_neg hk']
        exact ih

theorem Fields.get?_append (f g : Fields) (k : String) :
    Fields.get? (f ++ g) k = (Fields.get? f k).or (Fields.get? g k) := by
  unfold Fields.get?
  rw [List.find?_append]
  cases f.find? (fun p => p.1 == k) <;> simp [Option.or]

theorem Fields.get?_insertKV (f : Fields) (k k' : String) (v : Val) :
    Fields.get? (Fields.insertKV f k v) k'
      = if k' = k then some v else Fields.get? f k' := by
  unfold Fields.insertKV
  by_cases hs : (Fields.get? f k).isSome = true
  · rw [if_pos hs]
    by_cases hk : k' = k
    · subst hk
      rw [if_pos rfl]
      exact Fields.get?_map_replace_self f k' v hs
    · rw [if_neg hk]
      exact Fields.get?_map_replace_ne f k k' v hk
  · rw [if_neg hs]
    rw [Fields.get?_append]
    by_cases hk : k' = k
    · have hn : Fields.get? f k' = none := by
        cases hq : Fields.get? f k' with
        | none => rfl
        | some q => rw [← hk, hq] at hs; simp at hs
      have h1 : Fields.get? [(k, v)] k' = some v := by
        rw [Fields.get?_cons, if_pos hk.symm]
      rw [hn, h1, if_pos hk]
      simp [Option.or]
    · have h1 : Fields.get? [(k, v)] k' = none := by
        rw [Fields.get?_cons, if_neg (fun hh : k = k' => hk hh.symm)]
        rfl
      rw [h1, if_neg hk]
      cases Fields.get? f k' <;> simp [Option.or]

theorem Fields.get?_foldl_insertKV (g : Fields) (f : Fields) (k' : String)
    (wf : Fields.keysNodup g) :
    Fields.get? (g.foldl (fun acc kv => Fields.insertKV acc kv.1 kv.2) f) k'
      = (Fields.get? g k').or (Fields.get? f k') := by
  induction g generalizing f with
  | nil => simp [Fields.get?, Option.or]
  | cons kv rest ih =>
    unfold Fields.keysNodup at wf
    rw [List.map_cons, List.nodup_cons] at wf
    rw [List.foldl_cons]
    rw [ih (Fields.insertKV f kv.1 kv.2) wf.2]
    rw [Fields.get?_insertKV, Fields.get?_cons]
    by_cases hk : k' = kv.1
    · rw [if_pos hk, if_pos hk.symm]
      rw [hk, Fields.get?_eq_none rest kv.1 wf.1]
      simp [Option.or]
    · rw [if_neg hk, if_neg (fun hh : kv.1 = k' => hk hh.symm)]

theorem Store.length_setKey (s : Store) (r : Nat) (k : String) (v : Val) :
    (Store.setKey s r k v).length = s.length := by
  unfold Store.setKey
  exact List.length_set s r _

theorem Store.read_append_lt (s t : Store) (r : Nat) (h : r < s.length) :
    Store.read (s ++ t) r = Store.read s r := by
  unfold Store.read
  rw [List.getD_eq_getElem?_getD, List.getD_eq_getElem?_getD,
    List.getElem?_append, if_pos h]

theorem Store.read_append_new (s : Store) (m : Fields) :
    Store.read (s ++ [m]) s.length = m := by
  unfold Store.read
  rw [List.getD_eq_getElem?_getD, List.getElem?_append_right (le_refl _)]
  simp

theorem Store.read_set_ne (s : Store) (r r' : Nat) (x : Fields)
    (h : r ≠ r') : Store.read (s.set r' x) r = Store.read s r := by
  unfold Store.read
  rw [List.getD_eq_getElem?_getD, List.getD_eq_getElem?_getD,
    List.getElem?_set_ne (fun hh => h hh.symm)]

theorem Store.read_setKey_ne (s : Store) (r r' : Nat) (k : String)
    (v : Val) (h : r ≠ r') :
    Store.read (Store.setKey s r' k v) r = Store.read s r := by
  unfold Store.setKey
  exact Store.read_set_ne s r r' _ h

theorem Store.read_setKey_self (s : Store) (r : Nat) (k : String) (v : Val)
    (h : r < s.length) :
    Store.read (Store.setKey s r k v) r
      = Fields.insertKV (Store.read s r) k v := by
  unfold Store.setKey
  unfold Store.read
  rw [List.getD_eq_getElem?_getD, List.getElem?_set_self',
    List.getElem?_eq_getElem h]
  rfl

theorem Store.read_foldl_setKey_ne (g : Fields) (s : Store) (r r1 : Nat)
    (h : r ≠ r1) :
    Store.read (g.foldl (fun acc kv => Store.setKey acc r1 kv.1 kv.2) s) r
      = Store.read s r := by
  induction g generalizing s with
  | nil => rfl
  | cons kv rest ih =>
    rw [List.foldl_cons, ih]
    exact Store.read_setKey_ne s r r1 kv.1 kv.2 h

theorem Store.length_foldl_setKey (g : Fields) (s : Store) (r1 : Nat) :
    (g.foldl (fun acc kv => Store.setKey acc r1 kv.1 kv.2) s).length
      = s.length := by
  induction g generalizing s with
  | nil => rfl
  | cons kv rest ih =>
    rw [List.foldl_cons, ih, Store.length_setKey]

theorem Store.read_foldl_setKey_self (g : Fields) (s : Store) (r1 : Nat)
    (h : r1 < s.length) :
    Store.read (g.foldl (fun acc kv => Store.setKey acc r1 kv.1 kv.2) s) r1
      = g.foldl (fun acc kv => Fields.insertKV acc kv.1 kv.2)
          (Store.read s r1) := by
  induction g generalizing s with
  | nil => rfl
  | cons kv rest ih =>
    rw [List.foldl_cons, List.foldl_cons]
    rw [ih (Store.setKey s r1 kv.1 kv.2)
      (by rw [Store.length_setKey]; exact h)]
    rw [Store.read_setKey_self s r1 kv.1 kv.2 h]

theorem fieldsCopy_ref (s : Store) (r : Nat) : (fieldsCopy s r).2 = s.length :=
  rfl

theorem read_fieldsCopy_old (s : Store) (r r' : Nat) (h : r' < s.length) :
    Store.read (fieldsCopy s r).1 r' = Store.read s r' :=
  Store.read_append_lt s [Store.read s r] r' h

theorem read_fieldsCopy_new (s : Store) (r : Nat) :
    Store.read (fieldsCopy s r).1 (fieldsCopy s r).2 = Store.read s r :=
  Store.read_append_new s (Store.read s r)

theorem fieldsWith_ref (s : Store) (r : Nat) (k : String) (v : Val) :
    (fieldsWith s r k v).2 = s.length :=
  rfl

theorem read_fieldsWith_old (s : Store) (r r' : Nat) (k : String) (v : Val)
    (h : r' < s.length) :
    Store.read (fieldsWith s r k v).1 r' = Store.read s r' := by
  unfold fieldsWith
  dsimp only
  rw [fieldsCopy_ref]
  rw [Store.read_setKey_ne _ _ _ _ _ (Nat.ne_of_lt h)]
  exact read_fieldsCopy_old s r r' h

theorem read_fieldsWith_new (s : Store) (r : Nat) (k : String) (v : Val) :
    Store.read (fieldsWith s r k v).1 (fieldsWith s r k v).2
      = Fields.insertKV (Store.read s r) k v := by
  unfold fieldsWith
  have hlen : s.length < (fieldsCopy s r).1.length := by
    unfold fieldsCopy Store.alloc
    rw [List.length_append]
    simp
  rw [show (fieldsCopy s r).2 = s.length from rfl]
  rw [Store.read_setKey_self _ _ _ _ hlen]
  rw [show Store.read (fieldsCopy s r).1 s.length = Store.read s r from
    read_fieldsCopy_new s r]

theorem fieldsWithFields_ref (s : Store) (r : Nat) (g : Fields) :
    (fieldsWithFields s r g).2 = s.length :=
  rfl

theorem read_fieldsWithFields_old (s : Store) (r r' : Nat) (g : Fields)
    (h : r' < s.length) :
    Store.read (fieldsWithFields s r g).1 r' = Store.read s r' := by
  unfold fieldsWithFields
  dsimp only
  rw [fieldsCopy_ref]
  rw [Store.read_foldl_setKey_ne g _ r' _ (Nat.ne_of_lt h)]
  exact read_fieldsCopy_old s r r' h

theorem read_fieldsWithFields_new (s : Store) (r : Nat) (g : Fields) :
    Store.read (fieldsWithFields s r g).1 (fieldsWithFields s r g).2
      = g.foldl (fun acc kv => Fields.insertKV acc kv.1 kv.2)
          (Store.read s r) := by
  unfold fieldsWithFields
  have hlen : s.length < (fieldsCopy s r).1.length := by
    unfold fieldsCopy Store.alloc
    rw [List.length_append]
    simp
  rw [show (fieldsCopy s r).2 = s.length from rfl]
  rw [Store.read_foldl_setKey_self g _ s.length hlen]
  rw [show Store.read (fieldsCopy s r).1 s.length = Store.read s r from
    read_fieldsCopy_new s r]

theorem Logger.buildMessage_store_congr (s s' : Store) (l : Logger)
    (level : LogLevel) (m : String)
    (h : Store.read s' l.fields = Store.read s l.fields) :
    Logger.buildMessage s' l level m = Logger.buildMessage s l level m := by
  unfold Logger.buildMessage
  rw [h]

theorem Logger.Log_store_congr (s s' : Store) (l : Logger)
    (level : LogLevel) (m : String)
    (h : Store.read s' l.fields = Store.read s l.fields) :
    Logger.Log s' l level m = Logger.Log s l level m := by
  unfold Logger.Log
  rw [Logger.buildMessage_store_congr s s' l level m h]

theorem wrap64_wrap64_add (x y : Int) :
    wrap64 (wrap64 x + y) = wrap64 (x + y) := by
  unfold wrap64
  rw [show (x + 2 ^ 63) % 2 ^ 64 - 2 ^ 63 + y + 2 ^ 63
      = (x + 2 ^ 63) % 2 ^ 64 + y by ring]
  rw [Int.emod_add_emod]
  ring_nf

theorem wrap64_eq_self (x : Int) (h0 : 0 ≤ x) (h1 : x ≤ 2 ^ 63 - 1) :
    wrap64 x = x := by
  have c1 : (0 : Int) ≤ 2 ^ 63 := by norm_num
  have c2 : (2 : Int) ^ 63 + 2 ^ 63 = 2 ^ 64 := by norm_num
  unfold wrap64
  rw [Int.emod_eq_of_lt (by linarith) (by linarith)]
  ring

theorem sampleCounter_closed (p : Nat) : sampleCounter p = wrap64 (p : Int) := by
  induction p with
  | zero =>
    unfold sampleCounter wrap64
    rw [Int.emod_eq_of_lt (by norm_num) (by norm_num)]
    ring
  | succ q ih =>
    unfold sampleCounter
    rw [ih, wrap64_wrap64_add]
    push_cast
    ring_nf

theorem strLeAux_total (as bs : List Char) :
    strLeAux as bs = true ∨ strLeAux bs as = true := by
  induction as generalizing bs with
  | nil => left; rfl
  | cons a as' ih =>
    cases bs with
    | nil => right; rfl
    | cons b bs' =>
      by_cases hab : a = b
      · unfold strLeAux
        rw [if_pos hab, if_pos hab.symm]
        exact ih bs'
      · rcases lt_or_gt_of_ne hab with hlt | hgt
        · left
          unfold strLeAux
          rw [if_neg hab]
          simpa using hlt
        · right
          unfold strLeAux
          rw [if_neg (fun hh : b = a => hab hh.symm)]
          simpa using hgt

theorem strLeAux_trans (as bs cs : List Char)
    (h1 : strLeAux as bs = true) (h2 : strLeAux bs cs = true) :
    strLeAux as cs = true := by
  induction as generalizing bs cs with
  | nil => rfl
  | cons a as' ih =>
    cases bs with
    | nil => exact absurd h1 (by simp [strLeAux])
    | cons b bs' =>
      cases cs with
      | nil => exact absurd h2 (by simp [strLeAux])
      | cons c cs' =>
        unfold strLeAux at h1 h2 ⊢
        by_cases hab : a = b
        · rw [if_pos hab] at h1
          by_cases hbc : b = c
          · rw [if_pos hbc] at h2
            rw [if_pos (hab.trans hbc)]
            exact ih bs' cs' h1 h2
          · rw [if_neg hbc] at h2
            have hbclt : b < c := by simpa using h2
            have haclt : a < c := hab ▸ hbclt
            rw [if_neg (fun hh : a = c => absurd (hh ▸ haclt) (lt_irrefl c))]
            simpa using haclt
        · rw [if_neg hab] at h1
          have hablt : a < b := by simpa using h1
          by_cases hbc : b = c
          · have haclt : a < c := hbc ▸ hablt
            rw [if_neg (fun hh : a = c => absurd (hh ▸ haclt) (lt_irrefl c))]
            simpa using haclt
          · rw [if_neg hbc] at h2
            have hbclt : b < c := by simpa using h2
            have haclt : a < c := lt_trans hablt hbclt
            rw [if_neg (fun hh : a = c => absurd (hh ▸ haclt) (lt_irrefl c))]
            simpa using haclt

theorem strLeP_total (a b : String) : strLeP a b ∨ strLeP b a :=
  strLeAux_total a.data b.data

theorem strLeP_trans (a b c : String) (h1 : strLeP a b) (h2 : strLeP b c) :
    strLeP a c :=
  strLeAux_trans a.data b.data c.data h1 h2

/-- Claim C1: for every Logger with configured minimum level and every
emission call (`Log`, `Logf`, or any per-level convenience method) at
level `level`: if `level.IsEnabled(min)` is false the call emits nothing
(no message is built, no writer receives any bytes); if it is true, the
rendered message is dispatched to every configured writer.  The
per-level convenience methods delegate to `Log`/`Logf` at their fixed
level; `Fatal`/`Panic` produce exactly the write events of the
corresponding `Log` call. -/
theorem log_emission_level_gate (s : Store) (l : Logger) (level : LogLevel)
    (m : String) :
    (LogLevel.IsEnabled level l.level = false →
      Logger.Log s l level m = [] ∧ Logger.Logf s l level m = [])
    ∧ (LogLevel.IsEnabled level l.level = true →
      Logger.Log s l level m
          = l.writers.map
              (fun w => Event.write w (Logger.buildMessage s l level m))
        ∧ Logger.Logf s l level m
          = l.writers.map
              (fun w => Event.write w (Logger.buildMessage s l level m)))
    ∧ Logger.Trace s l m = Logger.Log s l TraceLevel m
    ∧ Logger.Debug s l m = Logger.Log s l DebugLevel m
    ∧ Logger.Info s l m = Logger.Log s l InfoLevel m
    ∧ Logger.Warning s l m = Logger.Log s l WarningLevel m
    ∧ Logger.Error s l m = Logger.Log s l ErrorLevel m
    ∧ Logger.Tracef s l m = Logger.Logf s l TraceLevel m
    ∧ Logger.Debugf s l m = Logger.Logf s l DebugLevel m
    ∧ Logger.Infof s l m = Logger.Logf s l InfoLevel m
    ∧ Logger.Warningf s l m = Logger.Logf s l WarningLevel m
    ∧ Logger.Errorf s l m = Logger.Logf s l ErrorLevel m
    ∧ writesOf (Logger.Fatal s l m) = writesOf (Logger.Log s l FatalLevel m)
    ∧ writesOf (Logger.Fatalf s l m) = writesOf (Logger.Logf s l FatalLevel m)
    ∧ writesOf (Logger.Panic s l m) = writesOf (Logger.Log s l PanicLevel m)
    ∧ writesOf (Logger.Panicf s l m)
        = writesOf (Logger.Logf s l PanicLevel m) := by
  refine ⟨?_, ?_, rfl, rfl, rfl, rfl, rfl, rfl, rfl, rfl, rfl, rfl,
    ?_, ?_, ?_, ?_⟩
  · intro h
    constructor <;> simp [Logger.Log, Logger.Logf, h]
  · intro h
    constructor <;> simp [Logger.Log, Logger.Logf, Logger.write, h]
  · rw [show Logger.Fatal s l m
        = Logger.Log s l FatalLevel m ++ [Event.exitEv] from rfl]
    unfold writesOf
    rw [List.filter_append]
    simp [Event.isWrite]
  · rw [show Logger.Fatalf s l m
        = Logger.Logf s l FatalLevel m ++ [Event.exitEv] from rfl]
    unfold writesOf
    rw [List.filter_append]
    simp [Event.isWrite]
  · rw [show Logger.Panic s l m
        = Logger.Log s l PanicLevel m ++ [Event.panicEv m] from rfl]
    unfold writesOf
    rw [List.filter_append]
    simp [Event.isWrite]
  · rw [show Logger.Panicf s l m
        = Logger.Logf s l PanicLevel m ++ [Event.panicEv m] from rfl]
    unfold writesOf
    rw [List.filter_append]
    simp [Event.isWrite]

/-- Witness for C1: on a minimum-level-WARNING logger with two writers,
an INFO call delivers nothing while an ERROR call delivers the rendered
message to both writers. -/
theorem log_emission_level_gate_witness :
    Logger.Log oneCell wLogger InfoLevel "m" = []
    ∧ Logger.Log oneCell wLogger ErrorLevel "m"
        = wLogger.writers.map
            (fun w => Event.write w
              (Logger.buildMessage oneCell wLogger ErrorLevel "m")) :=
  ⟨((log_emission_level_gate oneCell wLogger InfoLevel "m").1
      (by decide)).1,
    ((log_emission_level_gate oneCell wLogger ErrorLevel "m").2.1
      (by decide)).1⟩

/-- Counterexample to claim C2: with two attached prefix builders
rendering "a" and "", the code joins ALL rendered prefix strings, so the
empty render contributes a separator and the message carries a double
space, while the claimed rendering (join of the non-empty renders only)
does not. -/
theorem buildMessage_non_empty_join_cx :
    Logger.buildMessage oneCell cxLogger InfoLevel "m" = "INFO a  m"
    ∧ specMessageC2 oneCell cxLogger InfoLevel "m" = "INFO a m"
    ∧ Logger.buildMessage oneCell cxLogger InfoLevel "m"
        ≠ specMessageC2 oneCell cxLogger InfoLevel "m" :=
  ⟨by decide, by decide, by decide⟩

/-- Claim C2 (amended): the rendered message is the level name, then the
prefixes segment, then the formatted-fields segment, then the message
body, single-space separated with empty segments omitted — where the
prefixes segment is the join of ALL rendered prefix strings (empty
renders included) in attachment order, omitted only when that join is
itself empty. -/
theorem buildMessage_eq_amended (s : Store) (l : Logger) (level : LogLevel)
    (m : String) :
    Logger.buildMessage s l level m = amendedMessageC2 s l level m := by
  unfold Logger.buildMessage amendedMessageC2 amendedPrefixSegment
    specFieldsSegment Logger.buildPrefixStr
  dsimp only
  by_cases hp :
      String.intercalate " " (List.map (fun f => f ()) l.prefixes) = ""
  <;> by_cases h0 : (Store.read s l.fields).length = 0
  <;> by_cases hF :
      FieldsFormatter.Format l.fieldsFormatter (Store.read s l.fields) = ""
  <;> simp [hp, h0, hF, Nat.pos_iff_ne_zero]

/-- Claim C3: every derivation method returns a new Logger (its fields
map lives in a freshly allocated cell) and leaves the receiver
unchanged: the parent's fields map object is untouched (its level,
writers, prefixes and formatter are immutable record components), and
emitting from the parent after deriving a child renders and dispatches
exactly as before the derivation. -/
theorem derivation_preserves_parent (s : Store) (l : Logger)
    (level : LogLevel) (m k : String) (v : Val) (g : Fields)
    (fm : FieldsFormatter) (bs : List PrefixBuilderFunc) (sep : String)
    (h : l.fields < s.length) :
    (Store.read (Logger.WithTemporaryPrefix s l bs).1 l.fields
        = Store.read s l.fields
      ∧ (Logger.WithTemporaryPrefix s l bs).2.fields ≠ l.fields
      ∧ Logger.buildMessage (Logger.WithTemporaryPrefix s l bs).1 l level m
          = Logger.buildMessage s l level m
      ∧ Logger.Log (Logger.WithTemporaryPrefix s l bs).1 l level m
          = Logger.Log s l level m)
    ∧ (Store.read (Logger.WithField s l k v).1 l.fields
        = Store.read s l.fields
      ∧ (Logger.WithField s l k v).2.fields ≠ l.fields
      ∧ Logger.buildMessage (Logger.WithField s l k v).1 l level m
          = Logger.buildMessage s l level m
      ∧ Logger.Log (Logger.WithField s l k v).1 l level m
          = Logger.Log s l level m)
    ∧ (Store.read (Logger.WithFields s l g).1 l.fields
        = Store.read s l.fields
      ∧ (Logger.WithFields s l g).2.fields ≠ l.fields
      ∧ Logger.buildMessage (Logger.WithFields s l g).1 l level m
          = Logger.buildMessage s l level m
      ∧ Logger.Log (Logger.WithFields s l g).1 l level m
          = Logger.Log s l level m)
    ∧ (Store.read (Logger.WithFieldsFormatter s l fm).1 l.fields
        = Store.read s l.fields
      ∧ (Logger.WithFieldsFormatter s l fm).2.fields ≠ l.fields
      ∧ Logger.buildMessage (Logger.WithFieldsFormatter s l fm).1 l level m
          = Logger.buildMessage s l level m
      ∧ Logger.Log (Logger.WithFieldsFormatter s l fm).1 l level m
          = Logger.Log s l level m)
    ∧ (Store.read (Logger.WithJSON s l).1 l.fields = Store.read s l.fields
      ∧ (Logger.WithJSON s l).2.fields ≠ l.fields
      ∧ Logger.buildMessage (Logger.WithJSON s l).1 l level m
          = Logger.buildMessage s l level m
      ∧ Logger.Log (Logger.WithJSON s l).1 l level m
          = Logger.Log s l level m)
    ∧ (Store.read (Logger.WithLogfmt s l).1 l.fields = Store.read s l.fields
      ∧ (Logger.WithLogfmt s l).2.fields ≠ l.fields
      ∧ Logger.buildMessage (Logger.WithLogfmt s l).1 l level m
          = Logger.buildMessage s l level m
      ∧ Logger.Log (Logger.WithLogfmt s l).1 l level m
          = Logger.Log s l level m)
    ∧ (Store.read (Logger.WithKeyValue s l).1 l.fields
        = Store.read s l.fields
      ∧ (Logger.WithKeyValue s l).2.fields ≠ l.fields
      ∧ Logger.buildMessage (Logger.WithKeyValue s l).1 l level m
          = Logger.buildMessage s l level m
      ∧ Logger.Log (Logger.WithKeyValue s l).1 l level m
          = Logger.Log s l level m)
    ∧ (Store.read (Logger.WithKeyValueSeparator s l sep).1 l.fields
        = Store.read s l.fields
      ∧ (Logger.WithKeyValueSeparator s l sep).2.fields ≠ l.fields
      ∧ Logger.buildMessage (Logger.WithKeyValueSeparator s l sep).1 l level m
          = Logger.buildMessage s l level m
      ∧ Logger.Log (Logger.WithKeyValueSeparator s l sep).1 l level m
          = Logger.Log s l level m) := by
  have hne : s.length ≠ l.fields := Ne.symm (Nat.ne_of_lt h)
  have hc : Store.read (fieldsCopy s l.fields).1 l.fields
      = Store.read s l.fields :=
    read_fieldsCopy_old s l.fields l.fields h
  have hw : Store.read (fieldsWith s l.fields k v).1 l.fields
      = Store.read s l.fields :=
    read_fieldsWith_old s l.fields l.fields k v h
  have hwf : Store.read (fieldsWithFields s l.fields g).1 l.fields
      = Store.read s l.fields :=
    read_fieldsWithFields_old s l.fields l.fields g h
  exact ⟨⟨hc, hne, Logger.buildMessage_store_congr _ _ _ _ _ hc,
      Logger.Log_store_congr _ _ _ _ _ hc⟩,
    ⟨hw, hne, Logger.buildMessage_store_congr _ _ _ _ _ hw,
      Logger.Log_store_congr _ _ _ _ _ hw⟩,
    ⟨hwf, hne, Logger.buildMessage_store_congr _ _ _ _ _ hwf,
      Logger.Log_store_congr _ _ _ _ _ hwf⟩,
    ⟨hc, hne, Logger.buildMessage_store_congr _ _ _ _ _ hc,
      Logger.Log_store_congr _ _ _ _ _ hc⟩,
    ⟨hc, hne, Logger.buildMessage_store_congr _ _ _ _ _ hc,
      Logger.Log_store_congr _ _ _ _ _ hc⟩,
    ⟨hc, hne, Logger.buildMessage_store_congr _ _ _ _ _ hc,
      Logger.Log_store_congr _ _ _ _ _ hc⟩,
    ⟨hc, hne, Logger.buildMessage_store_congr _ _ _ _ _ hc,
      Logger.Log_store_congr _ _ _ _ _ hc⟩,
    ⟨hc, hne, Logger.buildMessage_store_congr _ _ _ _ _ hc,
      Logger.Log_store_congr _ _ _ _ _ hc⟩⟩

/-- Witness for C3: deriving a child with an extra field from a logger
over a one-cell store leaves the parent's rendering unchanged and
allocates a fresh cell for the child. -/
theorem derivation_preserves_parent_witness :
    Logger.buildMessage (Logger.WithField oneCell wLogger "k"
        (Val.str "x")).1 wLogger ErrorLevel "m"
      = Logger.buildMessage oneCell wLogger ErrorLevel "m"
    ∧ (Logger.WithField oneCell wLogger "k" (Val.str "x")).2.fields
        ≠ wLogger.fields :=
  ⟨((derivation_preserves_parent oneCell wLogger ErrorLevel "m" "k"
      (Val.str "x") [] DefaultFieldsFormatter [] " " (by decide)).2.1).2.2.1,
    ((derivation_preserves_parent oneCell wLogger ErrorLevel "m" "k"
      (Val.str "x") [] DefaultFieldsFormatter [] " " (by decide)).2.1).2.1⟩

/-- Claim C4: `Fields.Copy` returns a structurally independent map with
the same bindings (mutating the copy never mutates the original and vice
versa); `Fields.With` equals copy-then-upsert of the single pair;
`Fields.WithFields` equals copy-then-upsert of every binding of `other`,
`other` winning on duplicate keys; and none of the three mutates the
receiver map object. -/
theorem fields_copy_on_write (s : Store) (r : Nat) (k k' : String)
    (v : Val) (g : Fields) (h : r < s.length)
    (wf : Fields.keysNodup g) :
    (Store.read (fieldsCopy s r).1 (fieldsCopy s r).2 = Store.read s r)
    ∧ ((fieldsCopy s r).2 ≠ r)
    ∧ (Store.read
        (Store.setKey (fieldsCopy s r).1 (fieldsCopy s r).2 k v) r
        = Store.read s r)
    ∧ (Store.read (Store.setKey (fieldsCopy s r).1 r k v)
        (fieldsCopy s r).2 = Store.read s r)
    ∧ (Fields.get?
        (Store.read (fieldsWith s r k v).1 (fieldsWith s r k v).2) k'
        = if k' = k then some v else Fields.get? (Store.read s r) k')
    ∧ (Fields.get?
        (Store.read (fieldsWithFields s r g).1 (fieldsWithFields s r g).2)
          k'
        = (Fields.get? g k').or (Fields.get? (Store.read s r) k'))
    ∧ (Store.read (fieldsCopy s r).1 r = Store.read s r)
    ∧ (Store.read (fieldsWith s r k v).1 r = Store.read s r)
    ∧ (Store.read (fieldsWithFields s r g).1 r = Store.read s r) := by
  have hne : r ≠ s.length := Nat.ne_of_lt h
  refine ⟨read_fieldsCopy_new s r, Ne.symm hne, ?_, ?_, ?_, ?_,
    read_fieldsCopy_old s r r h, read_fieldsWith_old s r r k v h,
    read_fieldsWithFields_old s r r g h⟩
  · rw [fieldsCopy_ref, Store.read_setKey_ne _ _ _ _ _ hne]
    exact read_fieldsCopy_old s r r h
  · rw [fieldsCopy_ref, Store.read_setKey_ne _ _ _ _ _ (Ne.symm hne)]
    exact read_fieldsCopy_new s r
  · rw [read_fieldsWith_new s r k v]
    exact Fields.get?_insertKV (Store.read s r) k k' v
  · rw [read_fieldsWithFields_new s r g]
    exact Fields.get?_foldl_insertKV g (Store.read s r) k' wf

/-- Witness for C4: over a one-cell store holding a one-binding map,
`With` upserts the new key and `WithFields` lets the other map win, and
the original cell is untouched. -/
theorem fields_copy_on_write_witness :
    Fields.get?
        (Store.read (fieldsWith [[("a", Val.str "x")]] 0 "b" (Val.int 1)).1
          (fieldsWith [[("a", Val.str "x")]] 0 "b" (Val.int 1)).2) "b"
      = some (Val.int 1)
    ∧ Store.read
        (fieldsWithFields [[("a", Val.str "x")]] 0 [("a", Val.int 2)]).1 0
      = Store.read [[("a", Val.str "x")]] 0 :=
  ⟨by
    rw [show Fields.get?
        (Store.read (fieldsWith [[("a", Val.str "x")]] 0 "b" (Val.int 1)).1
          (fieldsWith [[("a", Val.str "x")]] 0 "b" (Val.int 1)).2) "b"
        = if "b" = "b" then some (Val.int 1)
          else Fields.get? (Store.read [[("a", Val.str "x")]] 0) "b" from
      (fields_copy_on_write [[("a", Val.str "x")]] 0 "b" "b" (Val.int 1)
        [("a", Val.int 2)] (by decide) (by decide)).2.2.2.2.1]
    decide,
    (fields_copy_on_write [[("a", Val.str "x")]] 0 "b" "b" (Val.int 1)
      [("a", Val.int 2)] (by decide) (by decide)).2.2.2.2.2.2.2.2⟩

/-- Claim C5: `Fatal`/`Fatalf` append the process-termination event and
`Panic`/`Panicf` append the stack-unwind event carrying the message text
strictly after the emission trace (which consists solely of write
events); and at the level layer, `LogLevel.Exit` produces the
termination event exactly when the level is at least FATAL and
`LogLevel.Panic` produces the unwind event exactly when the level is
PANIC. -/
theorem terminal_actions_after_emission (s : Store) (l : Logger)
    (m : String) (level : LogLevel) :
    Logger.Fatal s l m = Logger.Log s l FatalLevel m ++ [Event.exitEv]
    ∧ Logger.Fatalf s l m = Logger.Logf s l FatalLevel m ++ [Event.exitEv]
    ∧ Logger.Panic s l m
        = Logger.Log s l PanicLevel m ++ [Event.panicEv m]
    ∧ Logger.Panicf s l m
        = Logger.Logf s l PanicLevel m ++ [Event.panicEv m]
    ∧ (Logger.Log s l FatalLevel m).all Event.isWrite = true
    ∧ (Logger.Logf s l FatalLevel m).all Event.isWrite = true
    ∧ (Logger.Log s l PanicLevel m).all Event.isWrite = true
    ∧ (Logger.Logf s l PanicLevel m).all Event.isWrite = true
    ∧ (LogLevel.Exit level = [Event.exitEv] ↔ FatalLevel ≤ level)
    ∧ (LogLevel.Exit level = [] ∨ LogLevel.Exit level = [Event.exitEv])
    ∧ (LogLevel.Panic level m = [Event.panicEv m] ↔ level = PanicLevel)
    ∧ (LogLevel.Panic level m = []
        ∨ LogLevel.Panic level m = [Event.panicEv m]) := by
  refine ⟨rfl, rfl, rfl, rfl, ?_, ?_, ?_, ?_, ?_, ?_, ?_, ?_⟩
  · unfold Logger.Log
    split
    · simp [Logger.write, Event.isWrite]
    · rfl
  · unfold Logger.Logf
    split
    · simp [Logger.write, Event.isWrite]
    · rfl
  · unfold Logger.Log
    split
    · simp [Logger.write, Event.isWrite]
    · rfl
  · unfold Logger.Logf
    split
    · simp [Logger.write, Event.isWrite]
    · rfl
  · unfold LogLevel.Exit LogLevel.ShouldExit
    by_cases hl : FatalLevel ≤ level <;> simp [hl]
  · unfold LogLevel.Exit
    split
    · right; rfl
    · left; rfl
  · unfold LogLevel.Panic LogLevel.ShouldPanic
    by_cases hl : level = PanicLevel <;> simp [hl]
  · unfold LogLevel.Panic
    split
    · right; rfl
    · left; rfl

/-- Claim C6: the logfmt rendering equals the specified rendering —
key=value pairs over lexicographically sorted keys joined by single
spaces, a value quoted (with internal double quotes backslash-escaped)
iff its rendered form contains a space or an equals sign — and the key
order used is a sorted permutation of the map's keys. -/
theorem logfmt_quoting_sorted (f : Fields) :
    logfmtFormat f = specLogfmt f
    ∧ List.Sorted strLeP (sortStrings (f.map Prod.fst))
    ∧ (sortStrings (f.map Prod.fst)).Perm (f.map Prod.fst) := by
  refine ⟨?_, ?_, List.perm_insertionSort strLeP (f.map Prod.fst)⟩
  · unfold logfmtFormat specLogfmt
    by_cases h : f.length = 0
    · rw [if_pos h, if_pos h]
    · rw [if_neg h, if_neg h]
      dsimp only
      congr 1
      apply List.map_congr_left
      intro a _
      unfold specLogfmtEntry
      by_cases hc : (containsChar (govRender (Fields.getV f a)) ' '
          || containsChar (govRender (Fields.getV f a)) '=') = true
      · rw [if_pos hc, if_pos hc]
      · rw [if_neg hc, if_neg hc]
  · haveI ht : IsTotal String strLeP := ⟨strLeP_total⟩
    haveI htr : IsTrans String strLeP := ⟨strLeP_trans⟩
    exact List.sorted_insertionSort strLeP (f.map Prod.fst)

/-- Counterexample to claim C7: the closure's counter is a wrapping Go
`int`, so on the `(2 ^ 63 + 2)`-th call it holds `2 - 2 ^ 63` and
`SampleEveryN 3` returns false, although `2 ^ 63 + 2 ≡ 1 (mod 3)` —
the claimed true-iff-`p ≡ 1 (mod n)` pattern breaks once the counter
overflows. -/
theorem sample_every_n_wrap_cx :
    SampleEveryN 3 (2 ^ 63 + 2) = false
    ∧ ((2 ^ 63 + 2 : Nat) : Int) % 3 = 1 := by
  constructor
  · unfold SampleEveryN
    rw [if_neg (by norm_num)]
    rw [sampleCounter_closed]
    have h1 : wrap64 ((2 ^ 63 + 2 : Nat) : Int) = 2 - 2 ^ 63 := by
      unfold wrap64
      push_cast
    rw [h1]
    decide
  · push_cast

/-- Claim C7 (amended): for every `n ≥ 2` and every 1-indexed call
position `p` up to `2 ^ 63 - 1` (before the internal 64-bit counter
overflows), the predicate returned by `SampleEveryN n` returns true on
its `p`-th call exactly when `p ≡ 1 (mod n)`; for every `n ≤ 1` it
returns true on every call. -/
theorem sample_every_n_pattern (n : Int) (p : Nat) :
    (2 ≤ n → 1 ≤ p → (p : Int) ≤ 2 ^ 63 - 1 →
      (SampleEveryN n p = true ↔ (p : Int) % n = 1))
    ∧ (n ≤ 1 → SampleEveryN n p = true) := by
  constructor
  · intro hn _ hbound
    unfold SampleEveryN
    rw [if_neg (by omega)]
    rw [sampleCounter_closed]
    rw [wrap64_eq_self ((p : Nat) : Int) (by positivity) hbound]
    rw [Int.tmod_eq_emod (by positivity) (by omega)]
    simp
  · intro hn
    unfold SampleEveryN
    rw [if_pos hn]

/-- Witness for C7: `SampleEveryN 3` is true on the 4th call (4 ≡ 1 mod
3, well below the overflow bound) and `SampleEveryN 0` is true on the
7th call. -/
theorem sample_every_n_pattern_witness :
    SampleEveryN 3 4 = true ∧ SampleEveryN 0 7 = true :=
  ⟨((sample_every_n_pattern 3 4).1 (by decide) (by decide)
      (by norm_num)).mpr (by decide),
    (sample_every_n_pattern 0 7).2 (by decide)⟩

theorem FromContext_some (c : Context) :
    FromContext (some c)
      = (match Context.value c CtxKey.balogan with
        | some (CtxVal.lg lid) => (some lid, true)
        | _ => (none, false)) :=
  rfl

theorem ContextValueEquals_some (k : CtxKey) (expected : Option CtxVal)
    (c : Context) :
    ContextValueEquals k expected (some c)
      = (Context.value c k == expected) :=
  rfl

theorem HasContextValue_some (k : CtxKey) (c : Context) :
    HasContextValue k (some c) = (Context.value c k).isSome :=
  rfl

/-- Claim C8: attaching a Logger to a context and looking it up returns
that very Logger with `true`; lookup is not-found on a nil context, on a
context never carrying the private key, and on a context carrying a
value of the wrong type under the key; and with two Loggers attached in
nested contexts, lookup on each context returns the Logger most recently
attached to it. -/
theorem with_context_round_trip (lid l1 l2 : Nat) (ctx c : Context)
    (v : CtxVal) :
    FromContext (some (Logger.WithContext lid ctx)) = (some lid, true)
    ∧ FromContext none = (none, false)
    ∧ (Context.value c CtxKey.balogan = none →
        FromContext (some c) = (none, false))
    ∧ (Context.value c CtxKey.balogan = some v →
        CtxVal.isLogger v = false →
        FromContext (some c) = (none, false))
    ∧ FromContext
        (some (Logger.WithContext l2 (Logger.WithContext l1 ctx)))
        = (some l2, true)
    ∧ FromContext (some (Logger.WithContext l1 ctx))
        = (some l1, true) := by
  have hval : ∀ (i : Nat) (c' : Context),
      Context.value (Logger.WithContext i c') CtxKey.balogan
        = some (CtxVal.lg i) := by
    intro i c'
    rfl
  refine ⟨?_, rfl, ?_, ?_, ?_, ?_⟩
  · rw [FromContext_some, hval lid ctx]
  · intro hnone
    rw [FromContext_some, hnone]
  · intro hv hwrong
    rw [FromContext_some, hv]
    cases v with
    | lg i => simp [CtxVal.isLogger] at hwrong
    | str s => rfl
    | int i => rfl
  · rw [FromContext_some, hval l2 (Logger.WithContext l1 ctx)]
  · rw [FromContext_some, hval l1 ctx]

/-- Witness for C8: attach-then-retrieve returns the attached logger id;
a context without the key and a context holding a string under the key
are both not-found; nested attachment shadows. -/
theorem with_context_round_trip_witness :
    FromContext (some (Logger.WithContext 7 [])) = (some 7, true)
    ∧ FromContext (some [(CtxKey.user "k", CtxVal.str "s")]) = (none, false)
    ∧ FromContext (some [(CtxKey.balogan, CtxVal.str "oops")])
        = (none, false)
    ∧ FromContext (some (Logger.WithContext 2 (Logger.WithContext 1 [])))
        = (some 2, true) :=
  ⟨(with_context_round_trip 7 0 0 [] [] (CtxVal.str "s")).1,
    (with_context_round_trip 7 0 0 []
      [(CtxKey.user "k", CtxVal.str "s")] (CtxVal.str "s")).2.2.1
      (by decide),
    (with_context_round_trip 7 0 0 []
      [(CtxKey.balogan, CtxVal.str "oops")] (CtxVal.str "oops")).2.2.2.1
      (by decide) (by decide),
    (with_context_round_trip 7 1 2 [] [] (CtxVal.str "s")).2.2.2.2.1⟩

/-- Claim C9: `JSONFormatter.Format` never fails its caller: on every
non-empty fields map it returns the `json.Marshal` rendering of the
mapping, and when marshalling fails it returns the inline fallback
string built from the error instead of raising one. -/
theorem json_format_never_fails (f : Fields) (h : 0 < f.length) :
    marshalFields f = Except.ok (jsonFormat f)
    ∨ (∃ e, marshalFields f = Except.error e
        ∧ jsonFormat f
            = "\x7b\"error\":\"failed to marshal fields: " ++ e
                ++ "\"\x7d") := by
  unfold jsonFormat
  rw [if_neg (Nat.pos_iff_ne_zero.mp h)]
  cases hm : marshalFields f with
  | ok data => left; rfl
  | error e => right; exact ⟨e, rfl, rfl⟩

/-- Witness for C9: a marshallable one-binding map renders as its JSON
object, and a map holding a channel value renders as the fallback
string. -/
theorem json_format_never_fails_witness :
    (marshalFields [("a", Val.str "b")]
        = Except.ok (jsonFormat [("a", Val.str "b")])
      ∨ (∃ e, marshalFields [("a", Val.str "b")] = Except.error e
          ∧ jsonFormat [("a", Val.str "b")]
              = "\x7b\"error\":\"failed to marshal fields: " ++ e
                  ++ "\"\x7d"))
    ∧ (marshalFields [("a", Val.chanV)]
        = Except.ok (jsonFormat [("a", Val.chanV)])
      ∨ (∃ e, marshalFields [("a", Val.chanV)] = Except.error e
          ∧ jsonFormat [("a", Val.chanV)]
              = "\x7b\"error\":\"failed to marshal fields: " ++ e
                  ++ "\"\x7d")) :=
  ⟨json_format_never_fails [("a", Val.str "b")] (by decide),
    json_format_never_fails [("a", Val.chanV)] (by decide)⟩

/-- Claim C10: on a non-nil context that does not carry the key at all,
`ContextValueEquals(key, nil)` returns true while `HasContextValue(key)`
returns false: `ContextValueEquals` cannot distinguish an absent key
from a key present with a nil value. -/
theorem context_value_equals_nil_asymmetry (c : Context) (k : CtxKey)
    (h : Context.value c k = none) :
    ContextValueEquals k none (some c) = true
    ∧ HasContextValue k (some c) = false := by
  constructor
  · rw [ContextValueEquals_some, h]
    rfl
  · rw [HasContextValue_some, h]
    rfl

/-- Witness for C10: the empty (background) context carries no key, yet
`ContextValueEquals` with a nil expectation accepts it while
`HasContextValue` rejects it. -/
theorem context_value_equals_nil_asymmetry_witness :
    ContextValueEquals (CtxKey.user "x") none (some []) = true
    ∧ HasContextValue (CtxKey.user "x") (some []) = false :=
  context_value_equals_nil_asymmetry [] (CtxKey.user "x") (by decide)

end Balogan
